import Mathlib

/-
  Verification development for the CircuitMark parser
  (src/models.py and src/parser.py).

  Strings are modelled as Lean `String`, but all character-level
  operations are performed on `String.data : List Char` through
  small executable helpers, so that every definition is computable
  and amenable to both `decide` on concrete inputs and induction
  in the general theorems.

  Python dicts are modelled as insertion-ordered association lists
  (`List (String × α)`), Python object identity of `Node` values is
  modelled by a `uid : Nat` field drawn from a fresh counter kept in
  the `Circuit`, and Python exceptions are modelled by
  `Except String`.
-/

deriving instance DecidableEq for Except

namespace CircuitMark

/-! ### Character and string helpers (models of Python `str` methods) -/

/-- Characters stripped by Python `str.strip()` with no argument. -/
def pyWhitespace : List Char := [' ', '\t', '\n', '\r', Char.ofNat 11, Char.ofNat 12]

/-- List membership test for characters. -/
def listHas (c : Char) : List Char → Bool
| [] => false
| x :: xs => if x = c then true else listHas c xs

/-- Drop characters from the given set at the front of a list. -/
def dropSet (cs : List Char) : List Char → List Char
| [] => []
| x :: xs => if listHas x cs then dropSet cs xs else x :: xs

/-- Strip characters of the set `cs` from both ends, model of Python `str.strip(chars)`. -/
def stripChars (cs : List Char) (s : String) : String :=
String.mk ((dropSet cs (dropSet cs s.data).reverse).reverse)

/-- Model of Python `str.strip()` (no argument: whitespace). -/
def pyStrip (s : String) : String := stripChars pyWhitespace s

/-- Test whether `p` is a prefix of `l`. -/
def startsWithL : List Char → List Char → Bool
| [], _ => true
| _ :: _, [] => false
| p :: ps, x :: xs => if p = x then startsWithL ps xs else false

/-- Model of Python `str.startswith`. -/
def pyStartsWith (s pre : String) : Bool := startsWithL pre.data s.data

/-- Model of Python `c in s` membership of a character in a string. -/
def pyContains (s : String) (c : Char) : Bool := listHas c s.data

/-- Split a character list at every occurrence of `sep` (Python `str.split(sep)` keeps empty parts). -/
def splitOnCharL (sep : Char) : List Char → List (List Char)
| [] => [[]]
| c :: cs =>
  match splitOnCharL sep cs with
  | [] => [[]]
  | g :: gs => if c = sep then [] :: g :: gs else (c :: g) :: gs

/-- Model of Python `str.split(sep)` for a one-character separator. -/
def pySplitOn (s : String) (sep : Char) : List String :=
(splitOnCharL sep s.data).map String.mk

/-- Helper for Python `str.split(sep, 1)`: the part before and after the first `sep`.
Only meaningful when `sep` occurs in the list (the callers guard with `pyContains`). -/
def splitFirstAux (sep : Char) : List Char → List Char × List Char
| [] => ([], [])
| x :: xs =>
  if x = sep then ([], xs)
  else
    match splitFirstAux sep xs with
    | (l, r) => (x :: l, r)

/-- The part of `s` before the first occurrence of `sep`. -/
def beforeFirst (s : String) (sep : Char) : String := String.mk (splitFirstAux sep s.data).1

/-- The part of `s` after the first occurrence of `sep`. -/
def afterFirst (s : String) (sep : Char) : String := String.mk (splitFirstAux sep s.data).2

/-- Model of Python `str.split(maxsplit=1)`: whitespace split into at most two fields,
the second field keeping its inner spacing but not its leading whitespace. -/
def pySplit1 (s : String) : List String :=
match dropSet pyWhitespace s.data with
| [] => []
| t =>
  match List.span (fun c => !listHas c pyWhitespace) t with
  | (f, rest) =>
    match dropSet pyWhitespace rest with
    | [] => [String.mk f]
    | r => [String.mk f, String.mk r]

/-- Lowercase an ASCII character, model of Python `str.lower` on the inputs used here. -/
def lowerChar (c : Char) : Char :=
if 'A' ≤ c ∧ c ≤ 'Z' then Char.ofNat (c.toNat + 32) else c

/-- Model of Python `str.lower()`. -/
def pyLower (s : String) : String := String.mk (s.data.map lowerChar)

/-- Model of Python `sep.join(parts)`. -/
def joinSep (sep : String) : List String → String
| [] => ""
| [x] => x
| x :: y :: rest => x ++ sep ++ joinSep sep (y :: rest)

/-! ### Association lists modelling Python dicts -/

/-- Lookup in an insertion-ordered association list (Python `d[k]` / `k in d`). -/
def dlookup (k : String) : List (String × α) → Option α
| [] => none
| (k2, v) :: rest => if k2 = k then some v else dlookup k rest

/-- Python `d[k] = v`: update in place when the key exists, append otherwise. -/
def dinsert (m : List (String × α)) (k : String) (v : α) : List (String × α) :=
match m with
| [] => [(k, v)]
| (k2, v2) :: rest => if k2 = k then (k, v) :: rest else (k2, v2) :: dinsert rest k v

/-! ### Model of Python `shlex.split` (posix mode, as used by the parser) -/

/-- The single-quote character. -/
def squoteChar : Char := Char.ofNat 39

/-- The double-quote character. -/
def dquoteChar : Char := Char.ofNat 34

/-- The backslash escape character. -/
def backslashChar : Char := Char.ofNat 92

/-- Whitespace characters recognised by `shlex`. -/
def shlexWs : List Char := [' ', '\t', '\r', '\n']

/-- Lexer modes of the `shlex` state machine: plain scanning, escape after a
backslash, inside single quotes, inside double quotes, escape inside double quotes. -/
inductive ShMode | norm | esc | squote | dquote | dqesc
deriving DecidableEq, Repr

/-- Core of `shlex.split`: scans the characters, carrying the current mode and the
token accumulated so far (`none` when between tokens; quotes can yield empty tokens). -/
def shlexCore : List Char → ShMode → Option (List Char) → Except String (List String)
| [], .norm, none => .ok []
| [], .norm, some t => .ok [String.mk t]
| [], .esc, _ => .error "No escaped character"
| [], .dqesc, _ => .error "No escaped character"
| [], .squote, _ => .error "No closing quotation"
| [], .dquote, _ => .error "No closing quotation"
| c :: cs, .norm, acc =>
  if listHas c shlexWs then
    match acc with
    | none => shlexCore cs .norm none
    | some t =>
      match shlexCore cs .norm none with
      | .error e => .error e
      | .ok toks => .ok (String.mk t :: toks)
  else if c = squoteChar then shlexCore cs .squote (some (acc.getD []))
  else if c = dquoteChar then shlexCore cs .dquote (some (acc.getD []))
  else if c = backslashChar then shlexCore cs .esc (some (acc.getD []))
  else shlexCore cs .norm (some (acc.getD [] ++ [c]))
| c :: cs, .esc, acc => shlexCore cs .norm (some (acc.getD [] ++ [c]))
| c :: cs, .squote, acc =>
  if c = squoteChar then shlexCore cs .norm acc
  else shlexCore cs .squote (some (acc.getD [] ++ [c]))
| c :: cs, .dquote, acc =>
  if c = dquoteChar then shlexCore cs .norm acc
  else if c = backslashChar then shlexCore cs .dqesc acc
  else shlexCore cs .dquote (some (acc.getD [] ++ [c]))
| c :: cs, .dqesc, acc =>
  if c = dquoteChar ∨ c = backslashChar then shlexCore cs .dquote (some (acc.getD [] ++ [c]))
  else shlexCore cs .dquote (some (acc.getD [] ++ [backslashChar, c]))

/-- Model of `shlex.split(line)` as called by the parser. -/
def shlexSplit (line : String) : Except String (List String) :=
shlexCore line.data .norm none

/-! ### Data model (src/models.py) -/

/-- Model of `Node` from models.py. The `uid` field models Python object identity:
every Node constructor call in the source yields a fresh object, modelled by
drawing `uid` from the fresh counter kept in the circuit. -/
structure Node where
  name : String
  uid : Nat
deriving DecidableEq, Repr

/-- Model of `Component` from models.py. `properties` and `connections` are the dicts
populated by `add_property` and `add_connection`. -/
structure Component where
  component_type : String
  name : String
  primary_value : Option String
  properties : List (String × String)
  connections : List (String × Node)
deriving DecidableEq, Repr

/-- Model of `SubcircuitDefinition` from models.py. -/
structure SubcircuitDefinition where
  name : String
  interface : List String
  body_text : String
deriving DecidableEq, Repr

/-- Model of `Circuit` from models.py, plus the fresh-uid counter that models object identity. -/
structure Circuit where
  components : List (String × Component)
  nodes : List (String × Node)
  subcircuit_definitions : List (String × SubcircuitDefinition)
  ground_node_name : Option String
  nextUid : Nat
deriving DecidableEq, Repr

/-- The circuit produced by `Circuit.__init__`. -/
def emptyCircuit : Circuit := ⟨[], [], [], none, 0⟩

/-- Model of `Component.add_property` from models.py. -/
def Component.add_property (comp : Component) (key value : String) : Component :=
{ comp with properties := dinsert comp.properties key value }

/-- Model of `Component.add_connection` from models.py. -/
def Component.add_connection (comp : Component) (pin_name : String) (node : Node) : Component :=
{ comp with connections := dinsert comp.connections pin_name node }

/-- Model of `Circuit.add_component` from models.py. -/
def Circuit.add_component (c : Circuit) (comp : Component) : Except String Circuit :=
match dlookup comp.name c.components with
| some _ => .error ("Component name \x27" ++ comp.name ++ "\x27 already exists.")
| none => .ok { c with components := dinsert c.components comp.name comp }

/-- Model of `Circuit.declare_node` from models.py. -/
def Circuit.declare_node (c : Circuit) (node_name : String) : Except String Circuit :=
match dlookup node_name c.nodes with
| some _ => .error ("Node \x27" ++ node_name ++ "\x27 has already been declared.")
| none =>
  .ok { c with nodes := dinsert c.nodes node_name ⟨node_name, c.nextUid⟩,
               nextUid := c.nextUid + 1 }

/-- Python truthiness of `self.ground_node_name` (an `Optional[str]`):
`None` and the empty string are falsy. -/
def strTruthy : Option String → Bool
| none => false
| some s => s ≠ ""

/-- Model of `Circuit.set_ground_node` from models.py. The guard is Python
`if self.ground_node_name:`, i.e. truthiness, not an `is not None` test. -/
def Circuit.set_ground_node (c : Circuit) (node_name : String) : Except String Circuit :=
if strTruthy c.ground_node_name then
  .error "Ground node has already been set."
else
  match (if (dlookup node_name c.nodes).isSome then .ok c else c.declare_node node_name :
         Except String Circuit) with
  | .error e => .error e
  | .ok c2 => .ok { c2 with ground_node_name := some node_name }

/-- Model of `Circuit.get_node` from models.py. -/
def Circuit.get_node (c : Circuit) (node_name : String) : Except String Node :=
match dlookup node_name c.nodes with
| some n => .ok n
| none =>
  .error ("Undeclared node \x27" ++ node_name ++ "\x27. All nodes must be declared before use.")

/-! ### The parser (src/parser.py) -/

/-- Model of `COMPONENT_SCHEMA` from parser.py: valid pin names for each fixed component type. -/
def COMPONENT_SCHEMA : List (String × List String) :=
[("resistor", ["from", "to"]),
 ("capacitor", ["from", "to"]),
 ("inductor", ["from", "to"]),
 ("diode", ["from", "to"]),
 ("battery", ["from", "to"]),
 ("acsource", ["from", "to"]),
 ("switch", ["from", "to"])]

/-- Model of `KNOWN_PROPERTIES` from parser.py: valid properties that are not connection pins. -/
def KNOWN_PROPERTIES : List String :=
["model", "tolerance", "power", "color", "state", "amplitude", "frequency"]

/-- Model of the schema-pin lookup of parser.py line 177: the pins registered for the type, or the empty list for an unknown type. -/
def schemaPins (comp_type : String) : List String :=
(dlookup comp_type COMPONENT_SCHEMA).getD []

/-- Membership of a string in a string list, modelling Python `key in KNOWN_PROPERTIES`
and `key in valid_pins`. -/
def strListHas (k : String) : List String → Bool
| [] => false
| x :: xs => if x = k then true else strListHas k xs

/-- The `while tokens:` loop of `_parse_component_line` (parser.py lines 153-185):
consumes the remaining tokens, recording connections and properties on the component. -/
def processTokens (circuit : Circuit) (comp : Component) : List String → Except String Component
| [] => .ok comp
| token :: rest =>
  if token = "from" then
    match rest with
    | from_node_name :: next_tok :: to_node_name :: rest2 =>
      if from_node_name = "" then .error "\x27from\x27 missing node name."
      else
        match circuit.get_node from_node_name with
        | .error e => .error e
        | .ok n1 =>
          let comp2 := comp.add_connection "from" n1
          if next_tok ≠ "to" then .error "\x27from\x27 clause must be followed by \x27to\x27."
          else if to_node_name = "" then .error "\x27to\x27 missing node name."
          else
            match circuit.get_node to_node_name with
            | .error e => .error e
            | .ok n2 => processTokens circuit (comp2.add_connection "to" n2) rest2
    | _ =>
      .error ("Malformed component \x27" ++ comp.name ++
              "\x27: \x27from\x27 must be followed by \x27<node> to <node>\x27")
  else if pyContains token '=' then
    let key := beforeFirst token '='
    let value := afterFirst token '='
    if key = "" then .error ("Invalid key in token \x27" ++ token ++ "\x27.")
    else if value = "" then .error ("Invalid value in token \x27" ++ token ++ "\x27.")
    else if strListHas key (schemaPins comp.component_type) then
      match circuit.get_node value with
      | .error e => .error e
      | .ok n => processTokens circuit (comp.add_connection key n) rest
    else if strListHas key KNOWN_PROPERTIES then
      processTokens circuit (comp.add_property key value) rest
    else
      .error ("Invalid pin or property \x27" ++ key ++ "\x27 for component type \x27" ++
              comp.component_type ++ "\x27")
  else
    .error ("Unexpected token \x27" ++ token ++ "\x27 in component \x27" ++ comp.name ++ "\x27.")

/-- Model of the set comprehension over node identities at parser.py line 190. -/
def setOfList : List Nat → List Nat
| [] => []
| x :: xs =>
  let s := setOfList xs
  if x ∈ s then s else x :: s

/-- The shorted-component check of `_parse_component_line` (parser.py lines 187-192). -/
def shortedCheck (comp : Component) : Except String Unit :=
let con_nodes := comp.connections.map (fun p => p.2)
if 1 < con_nodes.length then
  if (setOfList (con_nodes.map (fun n => n.uid))).length = 1 then
    .error ("Component \x27" ++ comp.name ++ "\x27 is shorted (all pins connect to the same node)")
  else .ok ()
else .ok ()

/-- Model of the component-line parser from parser.py: tokenizes the line, pops type and name,
optionally pops a primary value, runs the token loop, the shorted check, and inserts
the component into the circuit. -/
def parseComponentLine (line : String) (circuit : Circuit) : Except String Circuit :=
match shlexSplit line with
| .error e => .error e
| .ok tokens =>
  match tokens with
  | t0 :: t1 :: rest =>
    let comp_type := pyLower t0
    let comp_name := t1
    let pv_rest : Option String × List String :=
      match rest with
      | r0 :: rs =>
        if ¬ pyContains r0 '=' ∧ r0 ≠ "from" ∧ r0 ≠ "to" then (some r0, rs) else (none, r0 :: rs)
      | [] => (none, [])
    match processTokens circuit ⟨comp_type, comp_name, pv_rest.1, [], []⟩ pv_rest.2 with
    | .error e => .error e
    | .ok comp =>
      match shortedCheck comp with
      | .error e => .error e
      | .ok _ => circuit.add_component comp
  | _ => .error "Component line must include at least a type and a name."

/-- The inner pin-definition loop of `_parse_subcircuit_block` (parser.py lines 114-123):
appends the public name of each pin definition to the interface. -/
def exposePins (interface : List String) : List String → Except String (List String)
| [] => .ok interface
| pin_def :: rest =>
  if pyContains pin_def '=' then
    let public_name := pyStrip (beforeFirst pin_def '=')
    if public_name = "" then .error "Invalid expose mapping in subcircuit."
    else exposePins (interface ++ [public_name]) rest
  else if pin_def = "" then .error "Invalid expose pin name."
  else exposePins (interface ++ [pin_def]) rest

/-- The per-line loop of `_parse_subcircuit_block` (parser.py lines 105-125):
collects the interface from `expose` lines and the remaining lines as the body. -/
def collectBlock (interface body : List String) : List String → Except String (List String × List String)
| [] => .ok (interface, body)
| l :: rest =>
  let line := pyStrip l
  if line = "" ∨ pyStartsWith line "#" then collectBlock interface body rest
  else if pyStartsWith line "expose" then
    match pySplit1 line with
    | [_, arg] =>
      let pin_defs := (pySplitOn arg ',').map pyStrip
      match exposePins interface pin_defs with
      | .error e => .error e
      | .ok interface2 => collectBlock interface2 body rest
    | _ => .error "Subcircuit \x27expose\x27 line must list pins, e.g. \x27expose a,b=c\x27."
  else collectBlock interface (body ++ [line]) rest

/-- Model of the subcircuit-block handler from parser.py. -/
def parseSubcircuitBlock (name : String) (lines : List String) (circuit : Circuit) :
    Except String Circuit :=
match collectBlock [] [] lines with
| .error e => .error e
| .ok (interface, body_lines) =>
  if interface = [] then
    .error ("Subcircuit \x27" ++ name ++ "\x27 has no \x27expose\x27 line defining its interface.")
  else
    .ok { circuit with
          subcircuit_definitions :=
            dinsert circuit.subcircuit_definitions name ⟨name, interface, joinSep "\n" body_lines⟩ }

/-- The `for name in node_names:` loop of the `node` command (parser.py lines 76-80). -/
def declareNodes (c : Circuit) : List String → Except String Circuit
| [] => .ok c
| n :: rest =>
  let name := pyStrip n
  if name = "" then declareNodes c rest
  else
    match c.declare_node name with
    | .error e => .error e
    | .ok c2 => declareNodes c2 rest

/-- The command dispatch of `Parser.parse` (parser.py lines 70-88): `command` is the
lowercased first token; `tokens` and `line` are as in the source. -/
def handleCommand (circuit : Circuit) (line : String) (tokens : List String) (command : String) :
    Except String Circuit :=
if command = "node" then
  match tokens with
  | _ :: t1 :: ts => declareNodes circuit (pySplitOn (joinSep " " (t1 :: ts)) ',')
  | _ => .error "\x27node\x27 requires a comma-separated list of node names."
else if command = "ground" then
  match tokens with
  | [_, g] => circuit.set_ground_node g
  | _ => .error "\x27ground\x27 declaration must have exactly one node name."
else if (dlookup command COMPONENT_SCHEMA).isSome ∨
        (dlookup command circuit.subcircuit_definitions).isSome then
  parseComponentLine line circuit
else
  .error ("Unknown command or component type \x27" ++ command ++ "\x27")

/-- The mutable locals of the `Parser.parse` loop: the circuit under construction,
`in_subcircuit_block`, `current_subcircuit_name` and `subcircuit_lines`. -/
structure PState where
  circuit : Circuit
  in_subcircuit_block : Bool
  current_subcircuit_name : Option String
  subcircuit_lines : List String
deriving DecidableEq, Repr

/-- The initial state of `Parser.parse`. -/
def initState : PState := ⟨emptyCircuit, false, none, []⟩

/-- The body of the `for line_num, line in enumerate(lines, 1):` loop of `Parser.parse`
(parser.py lines 34-88), without the line-number wrapping of the `except` clause. -/
def stepLine (st : PState) (rawLine : String) : Except String PState :=
let line := pyStrip rawLine
if pyStartsWith line "[/subcircuit]" then
  if ¬ st.in_subcircuit_block then
    .error "Found end of block \x27[/subcircuit]\x27 without a start."
  else
    match parseSubcircuitBlock (st.current_subcircuit_name.getD "") st.subcircuit_lines st.circuit with
    | .error e => .error e
    | .ok c => .ok ⟨c, false, none, []⟩
else if pyStartsWith line "[subcircuit" then
  if st.in_subcircuit_block then .error "Cannot nest subcircuits."
  else
    match pySplit1 line with
    | [_, nm] =>
      .ok { st with in_subcircuit_block := true,
                    current_subcircuit_name := some (stripChars [' ', ']'] nm),
                    subcircuit_lines := [] }
    | _ => .error "Subcircuit declaration must include a name, e.g. [subcircuit NAME]."
else if st.in_subcircuit_block then
  .ok { st with subcircuit_lines := st.subcircuit_lines ++ [line] }
else if line = "" ∨ pyStartsWith line "#" then .ok st
else
  match shlexSplit line with
  | .error e => .error e
  | .ok [] => .ok st
  | .ok (t0 :: ts) =>
    match handleCommand st.circuit line (t0 :: ts) (pyLower t0) with
    | .error e => .error e
    | .ok c => .ok { st with circuit := c }

/-- The error-message prefix attached by the `except` clause of `Parser.parse`
(parser.py line 92). -/
def wrapMsg (n : Nat) (e : String) : String := "On line " ++ toString n ++ ": " ++ e

/-- The line loop of `Parser.parse` plus its end-of-input check (parser.py lines 33-98):
each line is processed by `stepLine`, failures are re-raised with the 1-based line
number, and an unclosed block at end of input fails without such a wrap. -/
def parseLines (st : PState) (n : Nat) : List String → Except String Circuit
| [] =>
  if st.in_subcircuit_block then
    .error ("Subcircuit \x27" ++ st.current_subcircuit_name.getD "" ++
            "\x27 not closed with [/subcircuit].")
  else .ok st.circuit
| l :: rest =>
  match stepLine st l with
  | .error e => .error (wrapMsg n e)
  | .ok st2 => parseLines st2 (n + 1) rest

/-- Model of the top-level parse entry point from parser.py: strip the text, split it into lines, run the loop. -/
def parse (text : String) : Except String Circuit :=
parseLines initState 1 (pySplitOn (pyStrip text) '\n')

/-! ### General lemmas about the helpers -/

/-- Looking up the key just written by `dinsert` returns the written value. -/
theorem dlookup_dinsert_self (m : List (String × α)) (k : String) (v : α) :
    dlookup k (dinsert m k v) = some v := by
  induction m with
  | nil => simp [dinsert, dlookup]
  | cons p rest ih =>
    obtain ⟨k2, v2⟩ := p
    by_cases h : k2 = k
    · subst h; simp [dinsert, dlookup]
    · simp [dinsert, dlookup, h, ih]

/-- Membership in an appended list is the disjunction of the memberships. -/
theorem listHas_append (c : Char) (xs ys : List Char) :
    listHas c (xs ++ ys) = (listHas c xs || listHas c ys) := by
  induction xs with
  | nil => simp [listHas]
  | cons x xs ih => by_cases h : x = c <;> simp [listHas, h, ih]

/-- Splitting happens at the first occurrence of the separator. -/
theorem splitFirstAux_append (sep : Char) (xs ys : List Char) (h : listHas sep xs = false) :
    splitFirstAux sep (xs ++ sep :: ys) = (xs, ys) := by
  induction xs with
  | nil => simp [splitFirstAux]
  | cons x xs ih =>
    by_cases hx : x = sep
    · simp [listHas, hx] at h
    · have h2 : listHas sep xs = false := by simpa [listHas, hx] using h
      simp [splitFirstAux, hx, ih h2]

/-- Membership in the model of a Python set comprehension. -/
theorem mem_setOfList (x : Nat) (l : List Nat) : x ∈ setOfList l ↔ x ∈ l := by
  induction l with
  | nil => simp [setOfList]
  | cons a as ih =>
    simp only [setOfList, List.mem_cons]
    by_cases h : a ∈ setOfList as
    · rw [if_pos h, ih]
      constructor
      · intro hx; exact Or.inr hx
      · rintro (rfl | hx)
        · exact ih.mp h
        · exact hx
    · rw [if_neg h]
      simp [List.mem_cons, ih]

/-- A list whose members are all the same value has a set model that is empty or a singleton. -/
theorem setOfList_const (a : Nat) (l : List Nat) (h : ∀ b ∈ l, b = a) :
    setOfList l = [] ∨ setOfList l = [a] := by
  induction l with
  | nil => exact Or.inl rfl
  | cons x xs ih =>
    have hx : x = a := h x (List.mem_cons_self x xs)
    have hxs : ∀ b ∈ xs, b = a := fun b hb => h b (List.mem_cons_of_mem x hb)
    rcases ih hxs with h0 | h1
    · right; subst hx; simp [setOfList, h0]
    · right; subst hx; simp [setOfList, h1]

/-- The set model has exactly one element iff the list is nonempty with all members equal. -/
theorem setOfList_length_one (l : List Nat) :
    (setOfList l).length = 1 ↔ l ≠ [] ∧ ∀ a ∈ l, ∀ b ∈ l, a = b := by
  constructor
  · intro h
    match hs : setOfList l with
    | [] => rw [hs] at h; simp at h
    | [u] =>
      refine ⟨?_, ?_⟩
      · intro hnil; subst hnil; simp [setOfList] at hs
      · intro a ha b hb
        have ha2 : a ∈ setOfList l := (mem_setOfList a l).mpr ha
        have hb2 : b ∈ setOfList l := (mem_setOfList b l).mpr hb
        rw [hs] at ha2 hb2
        simp at ha2 hb2
        rw [ha2, hb2]
    | u :: v :: rest => rw [hs] at h; simp at h
  · rintro ⟨hne, hall⟩
    match l, hne with
    | a :: as, _ =>
      have hconst : ∀ b ∈ a :: as, b = a :=
        fun b hb => hall b hb a (List.mem_cons_self a as)
      rcases setOfList_const a (a :: as) hconst with h0 | h1
      · exfalso
        have : a ∈ setOfList (a :: as) :=
          (mem_setOfList a (a :: as)).mpr (List.mem_cons_self a as)
        rw [h0] at this
        simp at this
      · simp [h1]

/-- Concatenating a key, the separator and a value gives the expected character data. -/
theorem data_key_sep_value (kd vd : List Char) :
    (String.mk kd ++ "=" ++ String.mk vd).data = kd ++ '=' :: vd := by
  show (kd ++ ['=']) ++ vd = kd ++ '=' :: vd
  simp

/-! ### Claim theorems -/

/-- Claim C1: on a circuit in which nodes `n1` and `n2` are declared (distinct node
instances) and no component `R1` exists yet, the component line
`resistor R1 10k from n1 to n2` parses successfully, yielding a component named `R1`
of type `resistor` with primary value `10k`, whose pin `from` is connected to the node
registered under `n1` and whose pin `to` is connected to the node registered under `n2`. -/
theorem c1_resistor_line (c : Circuit) (nd1 nd2 : Node)
    (h1 : dlookup "n1" c.nodes = some nd1) (h2 : dlookup "n2" c.nodes = some nd2)
    (hid : nd1.uid ≠ nd2.uid) (hR : dlookup "R1" c.components = none) :
    ∃ c2 comp, parseComponentLine "resistor R1 10k from n1 to n2" c = .ok c2 ∧
      dlookup "R1" c2.components = some comp ∧
      comp.component_type = "resistor" ∧
      comp.primary_value = some "10k" ∧
      dlookup "from" comp.connections = some nd1 ∧
      dlookup "to" comp.connections = some nd2 := by
  have htok : shlexSplit "resistor R1 10k from n1 to n2" =
      .ok ["resistor", "R1", "10k", "from", "n1", "to", "n2"] := by decide
  refine ⟨{ c with components := dinsert c.components "R1" (Component.mk "resistor" "R1" (some "10k") [] [("from", nd1), ("to", nd2)]) },
          Component.mk "resistor" "R1" (some "10k") [] [("from", nd1), ("to", nd2)],
          ?_, ?_, rfl, rfl, ?_, ?_⟩
  · unfold parseComponentLine
    rw [htok]
    simp [processTokens, Circuit.get_node, h1, h2, Component.add_connection, dinsert,
          shortedCheck, setOfList, hid, Circuit.add_component, hR, pyContains, listHas,
          pyLower, lowerChar]
  · exact dlookup_dinsert_self c.components "R1" _
  · simp [dlookup]
  · simp [dlookup]

/-- Witness for C1 at a concrete circuit that has exactly the nodes `n1` and `n2`. -/
theorem c1_resistor_line_witness :
    ∃ c2 comp, parseComponentLine "resistor R1 10k from n1 to n2"
        (Circuit.mk [] [("n1", Node.mk "n1" 0), ("n2", Node.mk "n2" 1)] [] none 2) = .ok c2 ∧
      dlookup "R1" c2.components = some comp ∧
      comp.component_type = "resistor" ∧
      comp.primary_value = some "10k" ∧
      dlookup "from" comp.connections = some (Node.mk "n1" 0) ∧
      dlookup "to" comp.connections = some (Node.mk "n2" 1) :=
  c1_resistor_line (Circuit.mk [] [("n1", Node.mk "n1" 0), ("n2", Node.mk "n2" 1)] [] none 2)
    (Node.mk "n1" 0) (Node.mk "n2" 1) (by decide) (by decide) (by decide) (by decide)

/-- Counterexample to claim C2 as stated: the line
`capacitor C1 from n1 to n2 frequency=1k` (with `n1`, `n2` declared) does NOT fail;
`frequency` is in the global `KNOWN_PROPERTIES` list, so parsing succeeds and records
`frequency = 1k` as a property of `C1`. -/
theorem c2_frequency_is_known_property :
    ((parse "node n1, n2\ncapacitor C1 from n1 to n2 frequency=1k").toOption.bind
        (fun c => dlookup "C1" c.components)).map (fun comp => comp.properties) =
      some [("frequency", "1k")] := by decide

/-- Claim C2 (amended): a `key=value` token in the pin/property position whose key is
neither a schema pin of the component type nor in the global `KNOWN_PROPERTIES` list
makes the token-consumption loop fail with the schema-violation error. (The original
instance `frequency=1k` given in the claim is wrong: `frequency` IS in `KNOWN_PROPERTIES`.) -/
theorem c2_unknown_key_fails (c : Circuit) (comp : Component) (key value : String)
    (rest : List String) (hk : key ≠ "") (hv : value ≠ "")
    (hkeq : listHas '=' key.data = false)
    (hpin : strListHas key (schemaPins comp.component_type) = false)
    (hprop : strListHas key KNOWN_PROPERTIES = false) :
    processTokens c comp ((key ++ "=" ++ value) :: rest) =
      .error ("Invalid pin or property \x27" ++ key ++ "\x27 for component type \x27" ++
              comp.component_type ++ "\x27") := by
  obtain ⟨kd⟩ := key
  obtain ⟨vd⟩ := value
  have hdata : (String.mk kd ++ "=" ++ String.mk vd).data = kd ++ '=' :: vd :=
    data_key_sep_value kd vd
  have hcont : pyContains (String.mk kd ++ "=" ++ String.mk vd) '=' = true := by
    unfold pyContains
    rw [hdata, listHas_append]
    simp [listHas]
  have hnotfrom : (String.mk kd ++ "=" ++ String.mk vd) ≠ "from" := by
    intro hfeq
    rw [hfeq] at hcont
    simp [pyContains, listHas] at hcont
  have hsplit : splitFirstAux '=' (String.mk kd ++ "=" ++ String.mk vd).data = (kd, vd) := by
    rw [hdata]
    exact splitFirstAux_append '=' kd vd hkeq
  unfold processTokens
  rw [if_neg hnotfrom, if_pos hcont]
  unfold beforeFirst afterFirst
  rw [hsplit]
  simp only [if_neg hk, if_neg hv, if_neg (by simp [hpin] : ¬ strListHas (String.mk kd) (schemaPins comp.component_type) = true),
             if_neg (by simp [hprop] : ¬ strListHas (String.mk kd) KNOWN_PROPERTIES = true)]

/-- Witness for the amended C2: the token `foo=1k` on a capacitor fails. -/
theorem c2_unknown_key_fails_witness :
    processTokens emptyCircuit (Component.mk "capacitor" "C1" none [] []) ["foo" ++ "=" ++ "1k"] =
      .error ("Invalid pin or property \x27" ++ "foo" ++ "\x27 for component type \x27" ++
              "capacitor" ++ "\x27") :=
  c2_unknown_key_fails emptyCircuit (Component.mk "capacitor" "C1" none [] []) "foo" "1k" []
    (by decide) (by decide) (by decide) (by decide) (by decide)

/-- Claim C4 is right and the code is wrong: `set_ground_node` guards with Python
truthiness (`if self.ground_node_name:`), so after `ground ""` (the empty-string node
name, written with shell quotes) a second `ground` line does not fail: parsing the
two-line document succeeds, the empty-named node exists from the first ground
declaration, and ground ends up re-set to `n2`. -/
theorem c4_second_ground_accepted_after_empty :
    ((parse ("ground " ++ String.mk [dquoteChar, dquoteChar] ++ "\nground n2")).toOption.map
        (fun c => (c.ground_node_name, (dlookup "" c.nodes).isSome))) =
      some (some "n2", true) := by decide

/-- Claim C9: registering a subcircuit definition never checks for an existing name:
for every circuit, parsing a block overwrites any previous definition of the same name
(`dinsert`), and on a document with two complete `S` blocks, the returned circuit holds
the later definition (interface `["b", "c"]`, not `["a"]`). -/
theorem c9_duplicate_subcircuit_replaces :
    (∀ (c : Circuit) (name : String), parseSubcircuitBlock name ["expose x"] c =
      .ok { c with subcircuit_definitions := dinsert c.subcircuit_definitions name (SubcircuitDefinition.mk name ["x"] "") }) ∧
    ((parse "[subcircuit S]\nexpose a\n[/subcircuit]\n[subcircuit S]\nexpose b,c\n[/subcircuit]").toOption.bind
        (fun c => dlookup "S" c.subcircuit_definitions)) =
      some (SubcircuitDefinition.mk "S" ["b", "c"] "") :=
  ⟨fun c name => rfl, by decide⟩

/-- Claim C3: the shorted-component check fails exactly when the component has more
than one connected pin and all connected pins reference the identical node instance
(`uid` models Python `id`, so the comparison is object identity, not name equality);
a component whose pins resolve to two distinct node instances never triggers it,
whatever the node names. -/
theorem c3_shorted_iff_identity :
    (∀ comp : Component,
      (shortedCheck comp =
          .error ("Component \x27" ++ comp.name ++ "\x27 is shorted (all pins connect to the same node)") ↔
        1 < comp.connections.length ∧
          ∀ p ∈ comp.connections, ∀ q ∈ comp.connections, (p.2).uid = (q.2).uid)) ∧
    (∀ (t nm : String) (pv : Option String) (props : List (String × String)) (n1 n2 : Node),
      n1.uid ≠ n2.uid →
      shortedCheck (Component.mk t nm pv props [("from", n1), ("to", n2)]) = .ok ()) := by
  constructor
  · intro comp
    unfold shortedCheck
    by_cases hlen : 1 < (comp.connections.map (fun p => p.2)).length
    · rw [if_pos hlen]
      have hlen2 : 1 < comp.connections.length := by simpa using hlen
      by_cases hone :
          (setOfList ((comp.connections.map (fun p => p.2)).map (fun n => n.uid))).length = 1
      · rw [if_pos hone]
        simp only [true_iff, iff_true]
        refine ⟨hlen2, ?_⟩
        rw [setOfList_length_one] at hone
        intro p hp q hq
        exact hone.2 _ (List.mem_map_of_mem _ (List.mem_map_of_mem _ hp))
                     _ (List.mem_map_of_mem _ (List.mem_map_of_mem _ hq))
      · rw [if_neg hone]
        constructor
        · intro h; exact absurd h (by simp)
        · rintro ⟨_, hall⟩
          exfalso
          apply hone
          rw [setOfList_length_one]
          constructor
          · intro hnil
            rw [List.map_eq_nil_iff, List.map_eq_nil_iff] at hnil
            rw [hnil] at hlen2
            simp at hlen2
          · intro a ha b hb
            simp only [List.mem_map] at ha hb
            obtain ⟨na, ⟨pa, hpa, hna⟩, ha2⟩ := ha
            obtain ⟨nb, ⟨pb, hpb, hnb⟩, hb2⟩ := hb
            rw [← ha2, ← hb2, ← hna, ← hnb]
            exact hall pa hpa pb hpb
    · rw [if_neg hlen]
      constructor
      · intro h; exact absurd h (by simp)
      · rintro ⟨h1, _⟩
        exfalso
        apply hlen
        simpa using h1
  · intro t nm pv props n1 n2 hne
    unfold shortedCheck
    simp [setOfList, hne]

/-- Witness for C3: two distinct node instances that share the name `n` do not trigger
the shorted failure (identity, not name, is compared). -/
theorem c3_shorted_iff_identity_witness :
    shortedCheck (Component.mk "resistor" "R9" none []
        [("from", Node.mk "n" 0), ("to", Node.mk "n" 1)]) = .ok () :=
  c3_shorted_iff_identity.2 "resistor" "R9" none [] (Node.mk "n" 0) (Node.mk "n" 1) (by decide)

/-- Counterexample to claim C5 as stated: parsing `[subcircuit X]` fails, but the
unterminated-block error delivered to the caller carries no line-number prefix — it is
raised after the loop, outside the per-line wrapping. -/
theorem c5_eof_error_unwrapped :
    parse "[subcircuit X]" = .error "Subcircuit \x27X\x27 not closed with [/subcircuit]." ∧
    pyStartsWith "Subcircuit \x27X\x27 not closed with [/subcircuit]." "On line" = false :=
  ⟨by decide, by decide⟩

/-- Claim C5 (amended): every failure raised while processing line N is re-signalled as
`On line N: <original message>`, preserving the original text, with line numbers
1-based over the trimmed-and-split line sequence (second conjunct); but the
unterminated-block failure detected after the last line is not wrapped and carries no
line-number prefix (third conjunct). -/
theorem c5_line_errors_wrapped :
    (∀ (st : PState) (n : Nat) (line : String) (rest : List String) (e : String),
        stepLine st line = .error e →
        parseLines st n (line :: rest) = .error ("On line " ++ toString n ++ ": " ++ e)) ∧
    (∀ text : String, parse text = parseLines initState 1 (pySplitOn (pyStrip text) '\n')) ∧
    parse "[subcircuit X]" = .error "Subcircuit \x27X\x27 not closed with [/subcircuit]." := by
  refine ⟨?_, fun _ => rfl, by decide⟩
  intro st n line rest e h
  simp [parseLines, h, wrapMsg]

/-- Witness for the amended C5: an unknown command on line 1 is delivered wrapped. -/
theorem c5_line_errors_wrapped_witness :
    parseLines initState 1 ["florp"] =
      .error ("On line " ++ toString 1 ++ ": " ++ "Unknown command or component type \x27florp\x27") :=
  c5_line_errors_wrapped.1 initState 1 "florp" []
    "Unknown command or component type \x27florp\x27" (by decide)

/-- Counterexample to claim C7 as stated: after registering `[subcircuit Amp]`, the
line `Amp A1 from n1 to n2` — whose first token is exactly the subcircuit name — is
NOT dispatched to the component-line parser: the dispatch lowercases the token
(`amp`) but the registered name keeps its case (`Amp`), so the line fails as an
unknown command. -/
theorem c7_case_sensitive_lookup_fails :
    parse "[subcircuit Amp]\nexpose a\n[/subcircuit]\nAmp A1 from n1 to n2" =
      .error ("On line 4: Unknown command or component type \x27amp\x27") := by decide

/-- Claim C7 (amended): a Normal-state line is dispatched to the component-line parser
when its lowercased first token equals a registered subcircuit name (first conjunct);
when the lowercased token matches neither a fixed type nor a registered name — in
particular for any subcircuit registered under a name containing uppercase letters —
the line fails as an unknown command (second conjunct). -/
theorem c7_lowercased_dispatch :
    (∀ (c : Circuit) (line t0 : String) (ts : List String),
        pyLower t0 ≠ "node" → pyLower t0 ≠ "ground" →
        (dlookup (pyLower t0) c.subcircuit_definitions).isSome = true →
        handleCommand c line (t0 :: ts) (pyLower t0) = parseComponentLine line c) ∧
    (∀ (c : Circuit) (line t0 : String) (ts : List String),
        pyLower t0 ≠ "node" → pyLower t0 ≠ "ground" →
        (dlookup (pyLower t0) COMPONENT_SCHEMA).isSome = false →
        (dlookup (pyLower t0) c.subcircuit_definitions).isSome = false →
        handleCommand c line (t0 :: ts) (pyLower t0) =
          .error ("Unknown command or component type \x27" ++ pyLower t0 ++ "\x27")) := by
  constructor
  · intro c line t0 ts hn hg hdef
    unfold handleCommand
    rw [if_neg hn, if_neg hg, if_pos (Or.inr hdef)]
  · intro c line t0 ts hn hg hs hd
    unfold handleCommand
    rw [if_neg hn, if_neg hg, if_neg (by simp [hs, hd])]

/-- Witness for the amended C7: with a subcircuit registered under the lowercase name
`amp`, the line `AMP A1` (any letter case) is dispatched to the component-line parser. -/
theorem c7_lowercased_dispatch_witness :
    handleCommand (Circuit.mk [] [] [("amp", SubcircuitDefinition.mk "amp" ["a"] "")] none 0)
        "AMP A1" ["AMP", "A1"] (pyLower "AMP") =
      parseComponentLine "AMP A1"
        (Circuit.mk [] [] [("amp", SubcircuitDefinition.mk "amp" ["a"] "")] none 0) :=
  c7_lowercased_dispatch.1 (Circuit.mk [] [] [("amp", SubcircuitDefinition.mk "amp" ["a"] "")] none 0)
    "AMP A1" "AMP" ["A1"] (by decide) (by decide) (by decide)

/-- When no line of a subcircuit block starts with `expose`, the collected interface
stays empty (helper for C6). -/
theorem collectBlock_no_expose (lines : List String) : ∀ body : List String,
    (∀ l ∈ lines, pyStartsWith (pyStrip l) "expose" = false) →
    ∃ body2, collectBlock [] body lines = .ok ([], body2) := by
  induction lines with
  | nil => intro body _; exact ⟨body, rfl⟩
  | cons l rest ih =>
    intro body h
    have hl := h l (List.mem_cons_self l rest)
    have hrest := fun x hx => h x (List.mem_cons_of_mem l hx)
    simp only [collectBlock]
    by_cases hbc : pyStrip l = "" ∨ pyStartsWith (pyStrip l) "#" = true
    · rw [if_pos hbc]
      exact ih body hrest
    · rw [if_neg hbc, if_neg (by simp [hl])]
      exact ih (body ++ [pyStrip l]) hrest

/-- Claim C6: a subcircuit block with no `expose` line fails with the empty-interface
error (first conjunct); a block containing `expose a,b` yields a definition with
interface exactly `["a", "b"]` (second conjunct); a block containing
`expose pub=internal` retains only the public-facing name, interface `["pub"]`
(third conjunct). -/
theorem c6_expose_interface :
    (∀ (name : String) (lines : List String) (c : Circuit),
        (∀ l ∈ lines, pyStartsWith (pyStrip l) "expose" = false) →
        parseSubcircuitBlock name lines c =
          .error ("Subcircuit \x27" ++ name ++ "\x27 has no \x27expose\x27 line defining its interface.")) ∧
    (∀ (name : String) (c : Circuit),
        parseSubcircuitBlock name ["expose a,b"] c =
          .ok { c with subcircuit_definitions := dinsert c.subcircuit_definitions name (SubcircuitDefinition.mk name ["a", "b"] "") }) ∧
    (∀ (name : String) (c : Circuit),
        parseSubcircuitBlock name ["expose pub=internal"] c =
          .ok { c with subcircuit_definitions := dinsert c.subcircuit_definitions name (SubcircuitDefinition.mk name ["pub"] "") }) := by
  refine ⟨?_, fun name c => rfl, fun name c => rfl⟩
  intro name lines c h
  obtain ⟨body2, hcb⟩ := collectBlock_no_expose lines [] h
  unfold parseSubcircuitBlock
  rw [hcb]
  simp

/-- Witness for C6: a block whose only line is a component declaration has no
`expose` line, hence fails. -/
theorem c6_expose_interface_witness :
    parseSubcircuitBlock "S" ["resistor R1 10"] emptyCircuit =
      .error ("Subcircuit \x27" ++ "S" ++ "\x27 has no \x27expose\x27 line defining its interface.") :=
  c6_expose_interface.1 "S" ["resistor R1 10"] emptyCircuit (by decide)

/-- A string starting with the block-start marker does not start with the block-end
marker (helper for C8). -/
theorem startmarker_not_endmarker (s : String) (h : pyStartsWith s "[subcircuit" = true) :
    pyStartsWith s "[/subcircuit]" = false := by
  have e1 : ("[subcircuit" : String).data = '[' :: 's' :: ("ubcircuit" : String).data := rfl
  have e2 : ("[/subcircuit]" : String).data = '[' :: '/' :: ("subcircuit]" : String).data := rfl
  unfold pyStartsWith at h ⊢
  rw [e1] at h
  rw [e2]
  match hd : s.data with
  | [] =>
    rw [hd] at h
    simp [startsWithL] at h
  | [c0] =>
    rw [hd] at h
    simp only [startsWithL] at h
    by_cases hc0 : '[' = c0
    · rw [if_pos hc0] at h
      exact absurd h (by simp)
    · rw [if_neg hc0] at h
      exact absurd h (by simp)
  | c0 :: c1 :: rest =>
    rw [hd] at h
    simp only [startsWithL] at h ⊢
    by_cases hc0 : '[' = c0
    · rw [if_pos hc0] at h
      rw [if_pos hc0]
      by_cases hc1 : 's' = c1
      · have hc1n : ¬ ('/' = c1) := by rw [← hc1]; decide
        rw [if_neg hc1n]
      · rw [if_neg hc1] at h
        exact absurd h (by simp)
    · rw [if_neg hc0]

/-- Claim C8 (amended): on a Normal-state line starting with the block-start marker,
the parser fails exactly when the line has a single whitespace-delimited field (no
name argument); when a second field exists the block is entered with that field
stripped of spaces and `]` characters as the remembered name — which may be empty,
as for the line `[subcircuit ]`. -/
theorem c8_block_start (st : PState) (line : String)
    (hb : st.in_subcircuit_block = false)
    (hs : pyStartsWith (pyStrip line) "[subcircuit" = true) :
    ((pySplit1 (pyStrip line)).length < 2 →
      stepLine st line = .error "Subcircuit declaration must include a name, e.g. [subcircuit NAME].") ∧
    (∀ p0 nm, pySplit1 (pyStrip line) = [p0, nm] →
      stepLine st line = .ok (PState.mk st.circuit true (some (stripChars [' ', ']'] nm)) [])) := by
  have hend : pyStartsWith (pyStrip line) "[/subcircuit]" = false :=
    startmarker_not_endmarker _ hs
  constructor
  · intro hlen
    unfold stepLine
    rw [if_neg (by simp [hend]), if_pos hs, if_neg (by simp [hb])]
    match hsp : pySplit1 (pyStrip line) with
    | [] => rfl
    | [x] => rfl
    | x :: y :: zs =>
      rw [hsp] at hlen
      simp at hlen
      omega
  · intro p0 nm hsp
    unfold stepLine
    rw [if_neg (by simp [hend]), if_pos hs, if_neg (by simp [hb]), hsp]

/-- Counterexample to claim C8 as stated: `[subcircuit ]` has a second field (`]`)
that strips to the empty name, so a block IS entered with an empty remembered name;
the document parses successfully and registers a definition under the empty name. -/
theorem c8_empty_name_block_accepted :
    ((parse "[subcircuit ]\nexpose a\n[/subcircuit]").toOption.bind
        (fun c => dlookup "" c.subcircuit_definitions)).map (fun d => d.interface) =
      some ["a"] := by decide

/-- Witness for the amended C8: the line `[subcircuit ]` enters a block whose
remembered name strips to the empty string. -/
theorem c8_block_start_witness :
    stepLine initState "[subcircuit ]" =
      .ok (PState.mk emptyCircuit true (some (stripChars [' ', ']'] "]")) []) :=
  (c8_block_start initState "[subcircuit ]" rfl (by decide)).2 "[subcircuit" "]" (by decide)

/-- A one-character prefix test exposes the head of the string (helper for C10). -/
theorem startsWithL_single (c : Char) (l : List Char) (h : startsWithL [c] l = true) :
    ∃ rest, l = c :: rest := by
  match l with
  | [] => simp [startsWithL] at h
  | x :: xs =>
    simp only [startsWithL] at h
    by_cases hc : c = x
    · subst hc; exact ⟨xs, rfl⟩
    · rw [if_neg hc] at h
      exact absurd h (by simp)

/-- A prefix test fails when already the head characters differ (helper for C10). -/
theorem startsWithL_head_ne (p : Char) (ps : List Char) (x : Char) (xs : List Char)
    (hne : p ≠ x) : startsWithL (p :: ps) (x :: xs) = false := by
  simp [startsWithL, hne]

/-- A blank or comment line in Normal state leaves the parse state unchanged
(helper for C10). -/
theorem step_blank_comment (st : PState) (l : String) (hb : st.in_subcircuit_block = false)
    (h : pyStrip l = "" ∨ pyStartsWith (pyStrip l) "#" = true) : stepLine st l = .ok st := by
  have hhash : pyStrip l = "" ∨ ∃ rest, (pyStrip l).data = '#' :: rest := by
    rcases h with h0 | h0
    · exact Or.inl h0
    · exact Or.inr (startsWithL_single '#' (pyStrip l).data h0)
  have hend : pyStartsWith (pyStrip l) "[/subcircuit]" = false := by
    rcases hhash with h0 | ⟨rest, h0⟩
    · rw [h0]; decide
    · unfold pyStartsWith
      rw [h0, (rfl : ("[/subcircuit]" : String).data = '[' :: ("/subcircuit]" : String).data)]
      exact startsWithL_head_ne '[' _ '#' rest (by decide)
  have hstart : pyStartsWith (pyStrip l) "[subcircuit" = false := by
    rcases hhash with h0 | ⟨rest, h0⟩
    · rw [h0]; decide
    · unfold pyStartsWith
      rw [h0, (rfl : ("[subcircuit" : String).data = '[' :: ("subcircuit" : String).data)]
      exact startsWithL_head_ne '[' _ '#' rest (by decide)
  unfold stepLine
  rw [if_neg (by simp [hend]), if_neg (by simp [hstart]), if_neg (by simp [hb]), if_pos h]

/-- A run of blank and comment lines in Normal state returns the current circuit
unchanged (helper for C10). -/
theorem parseLines_blank_all (lines : List String) : ∀ (n : Nat) (st : PState),
    st.in_subcircuit_block = false →
    (∀ l ∈ lines, pyStrip l = "" ∨ pyStartsWith (pyStrip l) "#" = true) →
    parseLines st n lines = .ok st.circuit := by
  induction lines with
  | nil =>
    intro n st hb _
    simp [parseLines, hb]
  | cons l rest ih =>
    intro n st hb h
    have hstep : stepLine st l = .ok st :=
      step_blank_comment st l hb (h l (List.mem_cons_self l rest))
    simp only [parseLines]
    rw [hstep]
    exact ih (n + 1) st hb (fun x hx => h x (List.mem_cons_of_mem l hx))

/-- Claim C10: parsing the empty string, or any document all of whose (trimmed and
split) lines are blank or comments, succeeds and yields the empty circuit: no
components, no nodes, no subcircuit definitions, and no ground node. -/
theorem c10_blank_comment_doc (text : String)
    (h : ∀ l ∈ pySplitOn (pyStrip text) '\n',
        pyStrip l = "" ∨ pyStartsWith (pyStrip l) "#" = true) :
    parse text = .ok emptyCircuit ∧ emptyCircuit.components = [] ∧
      emptyCircuit.nodes = [] ∧ emptyCircuit.subcircuit_definitions = [] ∧
      emptyCircuit.ground_node_name = none :=
  ⟨parseLines_blank_all (pySplitOn (pyStrip text) '\n') 1 initState rfl h,
   rfl, rfl, rfl, rfl⟩

/-- Witness for C10 on a document of comments and blank lines (the empty string
satisfies the hypothesis as well). -/
theorem c10_blank_comment_doc_witness :
    parse "# a\n\n  # b" = .ok emptyCircuit ∧ emptyCircuit.components = [] ∧
      emptyCircuit.nodes = [] ∧ emptyCircuit.subcircuit_definitions = [] ∧
      emptyCircuit.ground_node_name = none :=
  c10_blank_comment_doc "# a\n\n  # b" (by decide)

end CircuitMark
